import Mathlib

/-!
Shallow embedding of the AFD (deterministic finite automaton) engine of the
AFD_Visualizer repository, and proofs of the claims of the specification about it.

The repository holds three near-identical copies of the automaton logic:
`AFD` in `afd_core.py`, and the `AFD` dataclasses of
`afd_visualizer_enhanced.py` and `afd_visualizer_enhancedd.py`.
Symbols and states are Python strings; sets are embedded as lists with
membership, and the Python dict-of-dicts transition table as an association
list of association lists (Python dict keys are unique, so first-match
lookup agrees with dict lookup).

The only mutable field of the Python objects is `etat_actuel`; methods that
read or write it are embedded as state-passing functions taking the incoming
`etat_actuel` and returning the outgoing one alongside the result.
-/

namespace AFDVisualizer

/-- The AFD definition record: fields of `AFD.__init__` in `afd_core.py`
(and of the `AFD` dataclasses of the two visualizer modules). -/
structure AFD where
  alphabet : List String
  etats : List String
  etat_initial : String
  etats_finaux : List String
  transitions : List (String × List (String × String))
deriving Repr, DecidableEq

/-- Dict-of-dicts lookup `transitions[etat][symbole]`, present exactly when
`etat in transitions and symbole in transitions[etat]` holds in Python. -/
def lookupTrans (afd : AFD) (etat symbole : String) : Option String :=
  match afd.transitions.lookup etat with
  | some table => table.lookup symbole
  | none => none

/-- `AFD.reinitialiser` of `afd_core.py`: discards the current state and
returns to the initial state. -/
def reinitialiser (afd : AFD) (_etat_actuel : String) : String :=
  afd.etat_initial

/-- `AFD.traiter_symbole` of `afd_core.py`: returns the boolean result of
the method together with the `etat_actuel` field after the call. -/
def traiter_symbole (afd : AFD) (etat_actuel symbole : String) : Bool × String :=
  if symbole ∉ afd.alphabet then
    (false, etat_actuel)
  else
    match lookupTrans afd etat_actuel symbole with
    | some dest => (true, dest)
    | none => (false, etat_actuel)

/-- The `for symbole in chaine` loop of `AFD.accepter_chaine` in
`afd_core.py`, starting from a given current state: returns the boolean
result and the final `etat_actuel`. -/
def accepter_boucle (afd : AFD) : String → List String → Bool × String
  | etat, [] => (decide (etat ∈ afd.etats_finaux), etat)
  | etat, symbole :: reste =>
    match traiter_symbole afd etat symbole with
    | (true, e2) => accepter_boucle afd e2 reste
    | (false, e2) => (false, e2)

/-- `AFD.accepter_chaine` of `afd_core.py`: calls `reinitialiser`, then
feeds the symbols one at a time to `traiter_symbole`, returning `false` at
the first failure, else final-state membership in `etats_finaux`. -/
def accepter_chaine (afd : AFD) (etat_actuel : String) (chaine : List String) : Bool × String :=
  accepter_boucle afd (reinitialiser afd etat_actuel) chaine

/-- The `for symbole in chaine` loop of `AFD.obtenir_chemin` in
`afd_core.py`: the states appended to `chemin` after the starting state,
and the final `etat_actuel` (the loop breaks at the first failed step). -/
def chemin_boucle (afd : AFD) : String → List String → List String × String
  | etat, [] => ([], etat)
  | etat, symbole :: reste =>
    match traiter_symbole afd etat symbole with
    | (true, e2) =>
      let res := chemin_boucle afd e2 reste
      (e2 :: res.1, res.2)
    | (false, e2) => ([], e2)

/-- `AFD.obtenir_chemin` of `afd_core.py`: calls `reinitialiser`, starts the
path at the current (initial) state, and extends it with each successful
step, breaking at the first failure. -/
def obtenir_chemin (afd : AFD) (etat_actuel : String) (chaine : List String) : List String × String :=
  let e0 := reinitialiser afd etat_actuel
  let res := chemin_boucle afd e0 chaine
  (e0 :: res.1, res.2)

/-- `creer_afd_exemple` of `afd_core.py` (the same example is built in both
visualizer modules). -/
def creer_afd_exemple : AFD :=
  { alphabet := ["a", "b"]
    etats := ["q0", "q1", "q2"]
    etat_initial := "q0"
    etats_finaux := ["q2"]
    transitions := [("q0", [("a", "q1"), ("b", "q0")]),
                    ("q1", [("a", "q1"), ("b", "q2")]),
                    ("q2", [("a", "q1"), ("b", "q0")])] }

/-- The three structural invariants of a valid automaton definition (spec,
section 3): initial state declared, accepting states declared, and every
source, symbol and destination of every transition entry declared. -/
def estValide (afd : AFD) : Prop :=
  afd.etat_initial ∈ afd.etats ∧
  (∀ e ∈ afd.etats_finaux, e ∈ afd.etats) ∧
  (∀ p ∈ afd.transitions, p.1 ∈ afd.etats ∧
    ∀ q ∈ p.2, q.1 ∈ afd.alphabet ∧ q.2 ∈ afd.etats)

instance (afd : AFD) : Decidable (estValide afd) := by
  unfold estValide; infer_instance

/-- `AFD.__post_init__` of `afd_visualizer_enhanced.py` (identical in
`afd_visualizer_enhancedd.py`), as the construction step: raises
`ValueError` (embedded as `Except.error` carrying the message) when the
initial state is not in `etats` or some final state is not in `etats`;
otherwise the dataclass holds exactly the given fields. No other check is
performed. (`AFD.__init__` of `afd_core.py` performs no validation at all.) -/
def construire (alphabet etats : List String) (etat_initial : String)
    (etats_finaux : List String)
    (transitions : List (String × List (String × String))) : Except String AFD :=
  if etat_initial ∉ etats then
    .error "etat_initial must be an element of etats"
  else if ¬ (∀ e ∈ etats_finaux, e ∈ etats) then
    .error "all etats_finaux must be in etats"
  else
    .ok ⟨alphabet, etats, etat_initial, etats_finaux, transitions⟩

/-- `AFD.traiter_symbole` of `afd_visualizer_enhanced.py`: same alphabet
check, then `trans = self.transitions.get(self.etat_actuel, {})` followed by
a lookup of the symbol in `trans`. -/
def traiter_symbole_enh (afd : AFD) (etat_actuel symbole : String) : Bool × String :=
  if symbole ∉ afd.alphabet then
    (false, etat_actuel)
  else
    let table := (afd.transitions.lookup etat_actuel).getD []
    match table.lookup symbole with
    | some dest => (true, dest)
    | none => (false, etat_actuel)

/-- The loop of `AFD.accepter_chaine` in `afd_visualizer_enhanced.py`. -/
def accepter_boucle_enh (afd : AFD) : String → List String → Bool × String
  | etat, [] => (decide (etat ∈ afd.etats_finaux), etat)
  | etat, symbole :: reste =>
    match traiter_symbole_enh afd etat symbole with
    | (true, e2) => accepter_boucle_enh afd e2 reste
    | (false, e2) => (false, e2)

/-- `AFD.accepter_chaine` of `afd_visualizer_enhanced.py`. -/
def accepter_chaine_enh (afd : AFD) (etat_actuel : String) (chaine : List String) : Bool × String :=
  accepter_boucle_enh afd (reinitialiser afd etat_actuel) chaine

/-- The loop of `AFD.obtenir_chemin` in `afd_visualizer_enhanced.py`. -/
def chemin_boucle_enh (afd : AFD) : String → List String → List String × String
  | etat, [] => ([], etat)
  | etat, symbole :: reste =>
    match traiter_symbole_enh afd etat symbole with
    | (true, e2) =>
      let res := chemin_boucle_enh afd e2 reste
      (e2 :: res.1, res.2)
    | (false, e2) => ([], e2)

/-- `AFD.obtenir_chemin` of `afd_visualizer_enhanced.py`. -/
def obtenir_chemin_enh (afd : AFD) (etat_actuel : String) (chaine : List String) : List String × String :=
  let e0 := reinitialiser afd etat_actuel
  let res := chemin_boucle_enh afd e0 chaine
  (e0 :: res.1, res.2)

/-- `AFD.traiter_symbole` of `afd_visualizer_enhancedd.py` (the file is a
byte-identical copy of the class body of the enhanced module). -/
def traiter_symbole_enhd (afd : AFD) (etat_actuel symbole : String) : Bool × String :=
  if symbole ∉ afd.alphabet then
    (false, etat_actuel)
  else
    let table := (afd.transitions.lookup etat_actuel).getD []
    match table.lookup symbole with
    | some dest => (true, dest)
    | none => (false, etat_actuel)

/-- The loop of `AFD.accepter_chaine` in `afd_visualizer_enhancedd.py`. -/
def accepter_boucle_enhd (afd : AFD) : String → List String → Bool × String
  | etat, [] => (decide (etat ∈ afd.etats_finaux), etat)
  | etat, symbole :: reste =>
    match traiter_symbole_enhd afd etat symbole with
    | (true, e2) => accepter_boucle_enhd afd e2 reste
    | (false, e2) => (false, e2)

/-- `AFD.accepter_chaine` of `afd_visualizer_enhancedd.py`. -/
def accepter_chaine_enhd (afd : AFD) (etat_actuel : String) (chaine : List String) : Bool × String :=
  accepter_boucle_enhd afd (reinitialiser afd etat_actuel) chaine

/-- The loop of `AFD.obtenir_chemin` in `afd_visualizer_enhancedd.py`. -/
def chemin_boucle_enhd (afd : AFD) : String → List String → List String × String
  | etat, [] => ([], etat)
  | etat, symbole :: reste =>
    match traiter_symbole_enhd afd etat symbole with
    | (true, e2) =>
      let res := chemin_boucle_enhd afd e2 reste
      (e2 :: res.1, res.2)
    | (false, e2) => ([], e2)

/-- `AFD.obtenir_chemin` of `afd_visualizer_enhancedd.py`. -/
def obtenir_chemin_enhd (afd : AFD) (etat_actuel : String) (chaine : List String) : List String × String :=
  let e0 := reinitialiser afd etat_actuel
  let res := chemin_boucle_enhd afd e0 chaine
  (e0 :: res.1, res.2)

/-- A valid automaton with a deliberately partial transition table:
`b` is in the alphabet but `q0` has no transition on `b`. Used to exhibit
the indistinguishability of the two rejection causes. -/
def afdPartiel : AFD :=
  { alphabet := ["a", "b"]
    etats := ["q0"]
    etat_initial := "q0"
    etats_finaux := []
    transitions := [("q0", [("a", "q0")])] }

/-- A valid automaton with an empty transition table: every in-alphabet
step is rejected by `NoTransition`, so a run can stop strictly before the
first out-of-alphabet symbol. -/
def afdSansTransitions : AFD :=
  { alphabet := ["a"]
    etats := ["q0"]
    etat_initial := "q0"
    etats_finaux := []
    transitions := [] }

/-- A transition table whose single entry uses a symbol (`z`) outside the
alphabet and a destination (`q9`) outside the state set. -/
def tableHorsEnsembles : List (String × List (String × String)) :=
  [("q0", [("z", "q9")])]

/-! ### Helper lemmas about the step function -/

theorem traiter_symbole_hors_alphabet (afd : AFD) (etat symbole : String)
    (h : symbole ∉ afd.alphabet) :
    traiter_symbole afd etat symbole = (false, etat) := by
  unfold traiter_symbole
  simp [h]

theorem traiter_symbole_sans_transition (afd : AFD) (etat symbole : String)
    (h : lookupTrans afd etat symbole = none) :
    traiter_symbole afd etat symbole = (false, etat) := by
  unfold traiter_symbole
  split
  · rfl
  · simp [h]

theorem traiter_symbole_transition (afd : AFD) (etat symbole dest : String)
    (h1 : symbole ∈ afd.alphabet) (h2 : lookupTrans afd etat symbole = some dest) :
    traiter_symbole afd etat symbole = (true, dest) := by
  unfold traiter_symbole
  simp [h1, h2]

theorem traiter_symbole_vrai_inv (afd : AFD) (etat symbole e2 : String)
    (h : traiter_symbole afd etat symbole = (true, e2)) :
    symbole ∈ afd.alphabet ∧ lookupTrans afd etat symbole = some e2 := by
  unfold traiter_symbole at h
  by_cases ha : symbole ∈ afd.alphabet
  · simp only [ha, not_true_eq_false, if_false] at h
    cases hl : lookupTrans afd etat symbole with
    | none => rw [hl] at h; simp at h
    | some d =>
      rw [hl] at h
      simp only [Prod.mk.injEq] at h
      exact ⟨ha, congrArg some h.2⟩
  · simp [ha] at h

theorem traiter_symbole_etat_inchange (afd : AFD) (etat symbole : String)
    (h : (traiter_symbole afd etat symbole).1 = false) :
    (traiter_symbole afd etat symbole).2 = etat := by
  unfold traiter_symbole at h ⊢
  by_cases ha : symbole ∈ afd.alphabet
  · simp only [ha, not_true_eq_false, if_false] at h ⊢
    cases hl : lookupTrans afd etat symbole with
    | none => simp [hl]
    | some d => rw [hl] at h; simp at h
  · simp [ha]

/-! ### Equivalence of the three copies of the logic -/

theorem lookupTrans_eq_getD (afd : AFD) (etat symbole : String) :
    lookupTrans afd etat symbole =
      ((afd.transitions.lookup etat).getD []).lookup symbole := by
  unfold lookupTrans
  cases afd.transitions.lookup etat <;> rfl

theorem traiter_eq_enh (afd : AFD) (etat symbole : String) :
    traiter_symbole afd etat symbole = traiter_symbole_enh afd etat symbole := by
  unfold traiter_symbole traiter_symbole_enh
  rw [lookupTrans_eq_getD]

theorem traiter_enh_eq_enhd (afd : AFD) (etat symbole : String) :
    traiter_symbole_enh afd etat symbole = traiter_symbole_enhd afd etat symbole :=
  rfl

theorem accepter_boucle_eq_enh (afd : AFD) :
    ∀ (chaine : List String) (etat : String),
      accepter_boucle afd etat chaine = accepter_boucle_enh afd etat chaine := by
  intro chaine
  induction chaine with
  | nil => intro etat; rfl
  | cons c reste ih =>
    intro etat
    unfold accepter_boucle accepter_boucle_enh
    rw [← traiter_eq_enh]
    cases h : traiter_symbole afd etat c with
    | mk ok e2 =>
      cases ok
      · rfl
      · exact ih e2

theorem accepter_boucle_enh_eq_enhd (afd : AFD) :
    ∀ (chaine : List String) (etat : String),
      accepter_boucle_enh afd etat chaine = accepter_boucle_enhd afd etat chaine := by
  intro chaine
  induction chaine with
  | nil => intro etat; rfl
  | cons c reste ih =>
    intro etat
    unfold accepter_boucle_enh accepter_boucle_enhd
    rw [← traiter_enh_eq_enhd]
    cases h : traiter_symbole_enh afd etat c with
    | mk ok e2 =>
      cases ok
      · rfl
      · exact ih e2

theorem chemin_boucle_eq_enh (afd : AFD) :
    ∀ (chaine : List String) (etat : String),
      chemin_boucle afd etat chaine = chemin_boucle_enh afd etat chaine := by
  intro chaine
  induction chaine with
  | nil => intro etat; rfl
  | cons c reste ih =>
    intro etat
    unfold chemin_boucle chemin_boucle_enh
    rw [← traiter_eq_enh]
    cases h : traiter_symbole afd etat c with
    | mk ok e2 =>
      cases ok
      · rfl
      · simp only [ih]

theorem chemin_boucle_enh_eq_enhd (afd : AFD) :
    ∀ (chaine : List String) (etat : String),
      chemin_boucle_enh afd etat chaine = chemin_boucle_enhd afd etat chaine := by
  intro chaine
  induction chaine with
  | nil => intro etat; rfl
  | cons c reste ih =>
    intro etat
    unfold chemin_boucle_enh chemin_boucle_enhd
    rw [← traiter_enh_eq_enhd]
    cases h : traiter_symbole_enh afd etat c with
    | mk ok e2 =>
      cases ok
      · rfl
      · simp only [ih]

/-! ### Equation helpers for the two loops -/

theorem accepter_boucle_cons_vrai (afd : AFD) (etat c e2 : String) (reste : List String)
    (h : traiter_symbole afd etat c = (true, e2)) :
    accepter_boucle afd etat (c :: reste) = accepter_boucle afd e2 reste := by
  conv_lhs => unfold accepter_boucle
  rw [h]

theorem accepter_boucle_cons_faux (afd : AFD) (etat c : String) (reste : List String)
    (h : (traiter_symbole afd etat c).1 = false) :
    accepter_boucle afd etat (c :: reste) = (false, (traiter_symbole afd etat c).2) := by
  unfold accepter_boucle
  cases ht : traiter_symbole afd etat c with
  | mk ok e2 =>
    cases ok
    · rfl
    · rw [ht] at h; simp at h

theorem chemin_boucle_cons_vrai (afd : AFD) (etat c e2 : String) (reste : List String)
    (h : traiter_symbole afd etat c = (true, e2)) :
    chemin_boucle afd etat (c :: reste) =
      (e2 :: (chemin_boucle afd e2 reste).1, (chemin_boucle afd e2 reste).2) := by
  conv_lhs => unfold chemin_boucle
  rw [h]

theorem chemin_boucle_cons_faux (afd : AFD) (etat c : String) (reste : List String)
    (h : (traiter_symbole afd etat c).1 = false) :
    chemin_boucle afd etat (c :: reste) = ([], (traiter_symbole afd etat c).2) := by
  unfold chemin_boucle
  cases ht : traiter_symbole afd etat c with
  | mk ok e2 =>
    cases ok
    · rfl
    · rw [ht] at h; simp at h

/-! ### Structure of the traced path -/

theorem chemin_boucle_chain (afd : AFD) :
    ∀ (chaine : List String) (etat : String),
      List.Chain' (fun p q => ∃ c ∈ chaine, lookupTrans afd p c = some q)
        (etat :: (chemin_boucle afd etat chaine).1) := by
  intro chaine
  induction chaine with
  | nil => intro etat; simp [chemin_boucle]
  | cons c reste ih =>
    intro etat
    cases ht : traiter_symbole afd etat c with
    | mk ok e2 =>
      cases ok
      · rw [chemin_boucle_cons_faux afd etat c reste (by rw [ht])]
        simp
      · rw [chemin_boucle_cons_vrai afd etat c e2 reste ht]
        have hv := traiter_symbole_vrai_inv afd etat c e2 ht
        rw [List.chain'_cons]
        constructor
        · exact ⟨c, List.mem_cons_self c reste, hv.2⟩
        · exact (ih e2).imp fun a b hab => by
            obtain ⟨d, hd, hlk⟩ := hab
            exact ⟨d, List.mem_cons_of_mem c hd, hlk⟩

theorem chemin_boucle_longueur_le (afd : AFD) :
    ∀ (chaine : List String) (etat : String),
      ((chemin_boucle afd etat chaine).1).length ≤ chaine.length := by
  intro chaine
  induction chaine with
  | nil => intro etat; simp [chemin_boucle]
  | cons c reste ih =>
    intro etat
    cases ht : traiter_symbole afd etat c with
    | mk ok e2 =>
      cases ok
      · rw [chemin_boucle_cons_faux afd etat c reste (by rw [ht])]
        simp
      · rw [chemin_boucle_cons_vrai afd etat c e2 reste ht]
        simpa using ih e2

theorem chemin_boucle_findIdx_le (afd : AFD) :
    ∀ (chaine : List String) (etat : String),
      ((chemin_boucle afd etat chaine).1).length ≤
        chaine.findIdx (fun c => !decide (c ∈ afd.alphabet)) := by
  intro chaine
  induction chaine with
  | nil => intro etat; simp [chemin_boucle]
  | cons c reste ih =>
    intro etat
    cases ht : traiter_symbole afd etat c with
    | mk ok e2 =>
      cases ok
      · rw [chemin_boucle_cons_faux afd etat c reste (by rw [ht])]
        simp
      · rw [chemin_boucle_cons_vrai afd etat c e2 reste ht]
        have hv := traiter_symbole_vrai_inv afd etat c e2 ht
        have hp : (!decide (c ∈ afd.alphabet)) = false := by simp [hv.1]
        rw [List.findIdx_cons, hp]
        simp only [cond_false, List.length_cons]
        exact Nat.succ_le_succ (ih e2)

/-! ### Relating acceptance to the traced path -/

theorem accepter_boucle_vrai_iff (afd : AFD) :
    ∀ (chaine : List String) (etat : String),
      ((accepter_boucle afd etat chaine).1 = true ↔
        (((chemin_boucle afd etat chaine).1).length = chaine.length ∧
          (etat :: (chemin_boucle afd etat chaine).1).getLastD "" ∈ afd.etats_finaux)) := by
  intro chaine
  induction chaine with
  | nil =>
    intro etat
    simp [accepter_boucle, chemin_boucle]
  | cons c reste ih =>
    intro etat
    cases ht : traiter_symbole afd etat c with
    | mk ok e2 =>
      cases ok
      · rw [accepter_boucle_cons_faux afd etat c reste (by rw [ht]),
          chemin_boucle_cons_faux afd etat c reste (by rw [ht])]
        simp
      · rw [accepter_boucle_cons_vrai afd etat c e2 reste ht,
          chemin_boucle_cons_vrai afd etat c e2 reste ht]
        have := ih e2
        simp only [List.length_cons, Nat.succ_inj, List.getLastD_cons] at this ⊢
        exact this

theorem accepter_boucle_faux_de_mauvais (afd : AFD) :
    ∀ (chaine : List String) (etat : String),
      (∃ c ∈ chaine, c ∉ afd.alphabet) →
        (accepter_boucle afd etat chaine).1 = false := by
  intro chaine
  induction chaine with
  | nil => intro etat h; simp at h
  | cons c reste ih =>
    intro etat h
    cases ht : traiter_symbole afd etat c with
    | mk ok e2 =>
      cases ok
      · rw [accepter_boucle_cons_faux afd etat c reste (by rw [ht])]
      · rw [accepter_boucle_cons_vrai afd etat c e2 reste ht]
        have hv := traiter_symbole_vrai_inv afd etat c e2 ht
        obtain ⟨d, hd, hda⟩ := h
        rcases List.mem_cons.mp hd with rfl | hdr
        · exact absurd hv.1 hda
        · exact ih e2 ⟨d, hdr, hda⟩

/-! ### The claims -/

/-- Claim C1, counterexample: a definition whose only transition entry uses
the symbol `z` outside the alphabet and the destination `q9` outside the
state set is nevertheless constructed successfully (the `__post_init__`
check of the enhanced modules never inspects the transition table), so
construction does not fail for out-of-set transition entries as the claim
states. -/
theorem construire_ignore_table_cex :
    construire ["a"] ["q0"] "q0" [] tableHorsEnsembles =
      Except.ok ⟨["a"], ["q0"], "q0", [], tableHorsEnsembles⟩ ∧
    ("q0", [("z", "q9")]) ∈ tableHorsEnsembles ∧
    "z" ∉ (["a"] : List String) ∧
    "q9" ∉ (["q0"] : List String) := by
  exact ⟨rfl, by decide, by decide, by decide⟩

/-- Claim C1, amended: construction fails (with a `ValueError`, and no
automaton is produced) exactly when the initial state is not in the state
set or some accepting state is not in the state set; transition-table
entries are never validated, and for every definition passing those two
checks construction succeeds and returns the automaton with exactly the
given fields. -/
theorem construire_spec (alphabet etats : List String) (etat_initial : String)
    (etats_finaux : List String)
    (transitions : List (String × List (String × String))) :
    ((∃ a, construire alphabet etats etat_initial etats_finaux transitions = Except.ok a) ↔
      (etat_initial ∈ etats ∧ ∀ e ∈ etats_finaux, e ∈ etats)) ∧
    ((construire alphabet etats etat_initial etats_finaux transitions =
        Except.ok ⟨alphabet, etats, etat_initial, etats_finaux, transitions⟩) ↔
      (etat_initial ∈ etats ∧ ∀ e ∈ etats_finaux, e ∈ etats)) := by
  unfold construire
  by_cases h1 : etat_initial ∈ etats
  · have hnot1 : ¬ etat_initial ∉ etats := not_not_intro h1
    by_cases h2 : ∀ e ∈ etats_finaux, e ∈ etats
    · rw [if_neg hnot1, if_neg (not_not_intro h2)]
      simp only [Except.ok.injEq, exists_eq]
      exact ⟨iff_of_true ⟨_, rfl⟩ ⟨h1, h2⟩, iff_of_true trivial ⟨h1, h2⟩⟩
    · rw [if_neg hnot1, if_pos h2]
      simp [h1, h2]
  · rw [if_pos h1]
    simp [h1]

/-- Claim C1, witness for the amended statement at a concrete definition. -/
theorem construire_spec_temoin :
    ((∃ a, construire ["a", "b"] ["q0", "q1", "q2"] "q0" ["q2"] [] = Except.ok a) ↔
      ("q0" ∈ ["q0", "q1", "q2"] ∧ ∀ e ∈ ["q2"], e ∈ ["q0", "q1", "q2"])) ∧
    ((construire ["a", "b"] ["q0", "q1", "q2"] "q0" ["q2"] [] =
        Except.ok ⟨["a", "b"], ["q0", "q1", "q2"], "q0", ["q2"], []⟩) ↔
      ("q0" ∈ ["q0", "q1", "q2"] ∧ ∀ e ∈ ["q2"], e ∈ ["q0", "q1", "q2"])) :=
  construire_spec ["a", "b"] ["q0", "q1", "q2"] "q0" ["q2"] []

/-- Claim C2, counterexample: on the valid automaton `afdPartiel`, stepping
on `z` (outside the alphabet) and stepping on `b` (in the alphabet but with
no transition from `q0`) return the very same value, and `accepter_chaine`
and `obtenir_chemin` likewise return identical results on the two inputs:
the return values do not distinguish the two rejection causes. -/
theorem traiter_causes_identiques_cex :
    estValide afdPartiel ∧
    "z" ∉ afdPartiel.alphabet ∧
    "b" ∈ afdPartiel.alphabet ∧
    lookupTrans afdPartiel "q0" "b" = none ∧
    traiter_symbole afdPartiel "q0" "z" = traiter_symbole afdPartiel "q0" "b" ∧
    accepter_chaine afdPartiel "q0" ["z"] = accepter_chaine afdPartiel "q0" ["b"] ∧
    obtenir_chemin afdPartiel "q0" ["z"] = obtenir_chemin afdPartiel "q0" ["b"] := by
  decide

/-- Claim C2, amended: both rejection causes collapse to the same outcome:
a step on a symbol outside the alphabet and a step on an alphabet symbol
with no transition entry each return the plain boolean `false` (with the
state unchanged), so callers of the step, acceptance and trace operations
receive no indication of which cause applied. -/
theorem rejet_cause_non_distinguee (afd : AFD) (etat c c2 : String)
    (h1 : c ∉ afd.alphabet) (h2 : c2 ∈ afd.alphabet)
    (h3 : lookupTrans afd etat c2 = none) :
    traiter_symbole afd etat c = (false, etat) ∧
    traiter_symbole afd etat c2 = (false, etat) ∧
    traiter_symbole afd etat c = traiter_symbole afd etat c2 := by
  have a1 := traiter_symbole_hors_alphabet afd etat c h1
  have a2 := traiter_symbole_sans_transition afd etat c2 h3
  exact ⟨a1, a2, a1.trans a2.symm⟩

/-- Claim C2, witness for the amended statement on `afdPartiel`. -/
theorem rejet_cause_non_distinguee_temoin :
    traiter_symbole afdPartiel "q0" "z" = (false, "q0") ∧
    traiter_symbole afdPartiel "q0" "b" = (false, "q0") ∧
    traiter_symbole afdPartiel "q0" "z" = traiter_symbole afdPartiel "q0" "b" :=
  rejet_cause_non_distinguee afdPartiel "q0" "z" "b" (by decide) (by decide) (by decide)

/-- Claim C3: step rejection is atomic: when the symbol is outside the
alphabet or the (state, symbol) pair is absent from the transition table,
`traiter_symbole` reports rejection and returns the current state
unchanged, and the path loop stops there, appending nothing and leaving
the state where it was. -/
theorem rejet_atomique (afd : AFD) (etat symbole : String) (reste : List String)
    (h : symbole ∉ afd.alphabet ∨ lookupTrans afd etat symbole = none) :
    traiter_symbole afd etat symbole = (false, etat) ∧
    chemin_boucle afd etat (symbole :: reste) = ([], etat) := by
  have hf : traiter_symbole afd etat symbole = (false, etat) := by
    rcases h with h | h
    · exact traiter_symbole_hors_alphabet afd etat symbole h
    · exact traiter_symbole_sans_transition afd etat symbole h
  refine ⟨hf, ?_⟩
  rw [chemin_boucle_cons_faux afd etat symbole reste (by rw [hf]), hf]

/-- Claim C3, witness at the example automaton and the symbol `c`. -/
theorem rejet_atomique_temoin :
    traiter_symbole creer_afd_exemple "q0" "c" = (false, "q0") ∧
    chemin_boucle creer_afd_exemple "q0" ["c", "a"] = ([], "q0") :=
  rejet_atomique creer_afd_exemple "q0" "c" ["a"] (Or.inl (by decide))

/-- Claim C4: for every automaton and every input, the path returned by
`obtenir_chemin` is non-empty, begins with the initial state, and every
pair of consecutive states in it is connected by a transition-table entry
on some symbol of the input. -/
theorem chemin_invariants (afd : AFD) (etat_actuel : String) (chaine : List String) :
    (obtenir_chemin afd etat_actuel chaine).1 ≠ [] ∧
    ((obtenir_chemin afd etat_actuel chaine).1).head? = some afd.etat_initial ∧
    List.Chain' (fun p q => ∃ c ∈ chaine, lookupTrans afd p c = some q)
      ((obtenir_chemin afd etat_actuel chaine).1) := by
  refine ⟨by simp [obtenir_chemin], by simp [obtenir_chemin, reinitialiser], ?_⟩
  have := chemin_boucle_chain afd chaine afd.etat_initial
  simpa [obtenir_chemin, reinitialiser] using this

/-- Claim C4, witness at the example automaton on the input `ab`. -/
theorem chemin_invariants_temoin :
    (obtenir_chemin creer_afd_exemple "q0" ["a", "b"]).1 ≠ [] ∧
    ((obtenir_chemin creer_afd_exemple "q0" ["a", "b"]).1).head? =
      some creer_afd_exemple.etat_initial ∧
    List.Chain' (fun p q => ∃ c ∈ ["a", "b"], lookupTrans creer_afd_exemple p c = some q)
      ((obtenir_chemin creer_afd_exemple "q0" ["a", "b"]).1) :=
  chemin_invariants creer_afd_exemple "q0" ["a", "b"]

/-- Claim C5, counterexample: on the valid automaton `afdSansTransitions`
(empty transition table) and the input `ax`, the first out-of-alphabet
symbol is at index 1, yet the run stops after consuming 0 symbols — the
rejection of `a` by a missing transition fires before the out-of-alphabet
symbol `x` is reached, so rejection is not evaluated exactly at the first
bad symbol. -/
theorem accepter_arret_avant_cex :
    estValide afdSansTransitions ∧
    "x" ∉ afdSansTransitions.alphabet ∧
    "a" ∈ afdSansTransitions.alphabet ∧
    (["a", "x"].findIdx (fun c => !decide (c ∈ afdSansTransitions.alphabet)) = 1) ∧
    (accepter_chaine afdSansTransitions "q0" ["a", "x"]).1 = false ∧
    ((obtenir_chemin afdSansTransitions "q0" ["a", "x"]).1).length - 1 = 0 ∧
    ((obtenir_chemin afdSansTransitions "q0" ["a", "x"]).1).length - 1 ≠
      ["a", "x"].findIdx (fun c => !decide (c ∈ afdSansTransitions.alphabet)) := by
  decide

/-- Claim C5, amended: for every automaton and every input containing a
symbol outside the alphabet, `accepter_chaine` returns `false`, and the
run stops at the first rejected step, which comes at or before the first
out-of-alphabet symbol (strictly before when an in-alphabet symbol with no
transition entry is hit first); the symbols after the stopping point are
never consumed. -/
theorem accepter_mauvais_symbole (afd : AFD) (etat_actuel : String) (chaine : List String)
    (h : ∃ c ∈ chaine, c ∉ afd.alphabet) :
    (accepter_chaine afd etat_actuel chaine).1 = false ∧
    ((obtenir_chemin afd etat_actuel chaine).1).length - 1 ≤
      chaine.findIdx (fun c => !decide (c ∈ afd.alphabet)) := by
  constructor
  · exact accepter_boucle_faux_de_mauvais afd chaine afd.etat_initial h
  · have := chemin_boucle_findIdx_le afd chaine afd.etat_initial
    simpa [obtenir_chemin, reinitialiser] using this

/-- Claim C5, witness at the example automaton on the input `ac`. -/
theorem accepter_mauvais_symbole_temoin :
    (accepter_chaine creer_afd_exemple "q0" ["a", "c"]).1 = false ∧
    ((obtenir_chemin creer_afd_exemple "q0" ["a", "c"]).1).length - 1 ≤
      ["a", "c"].findIdx (fun c => !decide (c ∈ creer_afd_exemple.alphabet)) :=
  accepter_mauvais_symbole creer_afd_exemple "q0" ["a", "c"] (by decide)

/-- Claim C6: on the empty input, `accepter_chaine` performs no step — it
returns the membership of the initial state in the accepting states, with
the current state still the initial state. -/
theorem accepter_chaine_vide (afd : AFD) (etat_actuel : String) :
    accepter_chaine afd etat_actuel [] =
      (decide (afd.etat_initial ∈ afd.etats_finaux), afd.etat_initial) ∧
    ((accepter_chaine afd etat_actuel []).1 = true ↔
      afd.etat_initial ∈ afd.etats_finaux) := by
  refine ⟨rfl, ?_⟩
  simp [accepter_chaine, reinitialiser, accepter_boucle]

/-- Claim C6, witness at the example automaton. -/
theorem accepter_chaine_vide_temoin :
    accepter_chaine creer_afd_exemple "q1" [] =
      (decide (creer_afd_exemple.etat_initial ∈ creer_afd_exemple.etats_finaux),
        creer_afd_exemple.etat_initial) ∧
    ((accepter_chaine creer_afd_exemple "q1" []).1 = true ↔
      creer_afd_exemple.etat_initial ∈ creer_afd_exemple.etats_finaux) :=
  accepter_chaine_vide creer_afd_exemple "q1"

/-- Claim C7: `accepter_chaine` and `obtenir_chemin` give results that are
independent of the `etat_actuel` value the object holds when they are
called (each call begins with `reinitialiser`), so a second call on the
same object — whose only mutable field is `etat_actuel`, left by any
earlier `accepter_chaine` or `obtenir_chemin` call — returns exactly what
the first call returned. -/
theorem pas_de_fuite_entre_appels (afd : AFD) (e0 e1 : String) (chaine : List String) :
    accepter_chaine afd e0 chaine = accepter_chaine afd e1 chaine ∧
    obtenir_chemin afd e0 chaine = obtenir_chemin afd e1 chaine ∧
    accepter_chaine afd (accepter_chaine afd e0 chaine).2 chaine =
      accepter_chaine afd e0 chaine ∧
    obtenir_chemin afd (obtenir_chemin afd e0 chaine).2 chaine =
      obtenir_chemin afd e0 chaine ∧
    accepter_chaine afd (obtenir_chemin afd e0 chaine).2 chaine =
      accepter_chaine afd e0 chaine :=
  ⟨rfl, rfl, rfl, rfl, rfl⟩

/-- Claim C8: the six concrete scenarios of the specification on the
example automaton built by `creer_afd_exemple`. -/
theorem exemple_scenarios :
    (accepter_chaine creer_afd_exemple "q0" ["a", "b"]).1 = true ∧
    (obtenir_chemin creer_afd_exemple "q0" ["a", "b"]).1 = ["q0", "q1", "q2"] ∧
    (accepter_chaine creer_afd_exemple "q0" ["a", "a", "b"]).1 = true ∧
    (obtenir_chemin creer_afd_exemple "q0" ["a", "a", "b"]).1 = ["q0", "q1", "q1", "q2"] ∧
    (accepter_chaine creer_afd_exemple "q0" ["b"]).1 = false ∧
    (obtenir_chemin creer_afd_exemple "q0" ["b"]).1 = ["q0", "q0"] ∧
    (accepter_chaine creer_afd_exemple "q0" ["a", "a"]).1 = false ∧
    (obtenir_chemin creer_afd_exemple "q0" ["a", "a"]).1 = ["q0", "q1", "q1"] ∧
    (accepter_chaine creer_afd_exemple "q0" ["a", "b", "b"]).1 = false ∧
    (obtenir_chemin creer_afd_exemple "q0" ["a", "b", "b"]).1 = ["q0", "q1", "q2", "q0"] ∧
    "c" ∉ creer_afd_exemple.alphabet ∧
    (accepter_chaine creer_afd_exemple "q0" ["a", "c"]).1 = false ∧
    (obtenir_chemin creer_afd_exemple "q0" ["a", "c"]).1 = ["q0", "q1"] := by
  decide

/-- Claim C9: the acceptance and trace operations of the three copies of
the automaton logic (`afd_core.py`, `afd_visualizer_enhanced.py`,
`afd_visualizer_enhancedd.py`) return identical results on every automaton
definition, every starting `etat_actuel` and every input. -/
theorem trois_copies_equivalentes (afd : AFD) (etat_actuel : String) (chaine : List String) :
    accepter_chaine afd etat_actuel chaine = accepter_chaine_enh afd etat_actuel chaine ∧
    accepter_chaine_enh afd etat_actuel chaine = accepter_chaine_enhd afd etat_actuel chaine ∧
    obtenir_chemin afd etat_actuel chaine = obtenir_chemin_enh afd etat_actuel chaine ∧
    obtenir_chemin_enh afd etat_actuel chaine = obtenir_chemin_enhd afd etat_actuel chaine := by
  refine ⟨?_, ?_, ?_, ?_⟩
  · exact accepter_boucle_eq_enh afd chaine (reinitialiser afd etat_actuel)
  · exact accepter_boucle_enh_eq_enhd afd chaine (reinitialiser afd etat_actuel)
  · unfold obtenir_chemin obtenir_chemin_enh
    simp only [chemin_boucle_eq_enh]
  · unfold obtenir_chemin_enh obtenir_chemin_enhd
    simp only [chemin_boucle_enh_eq_enhd]

/-- Claim C10: the traced path has between 1 and (input length + 1)
states, and `accepter_chaine` returns `true` exactly when the path is full
length (no symbol was rejected) and its last state is accepting. -/
theorem accepter_chemin_coherents (afd : AFD) (etat_actuel : String) (chaine : List String) :
    1 ≤ ((obtenir_chemin afd etat_actuel chaine).1).length ∧
    ((obtenir_chemin afd etat_actuel chaine).1).length ≤ chaine.length + 1 ∧
    ((accepter_chaine afd etat_actuel chaine).1 = true ↔
      (((obtenir_chemin afd etat_actuel chaine).1).length = chaine.length + 1 ∧
        ((obtenir_chemin afd etat_actuel chaine).1).getLastD "" ∈ afd.etats_finaux)) := by
  refine ⟨by simp [obtenir_chemin], ?_, ?_⟩
  · have := chemin_boucle_longueur_le afd chaine afd.etat_initial
    simp only [obtenir_chemin, reinitialiser, List.length_cons]
    omega
  · have hb := accepter_boucle_vrai_iff afd chaine afd.etat_initial
    simp only [accepter_chaine, reinitialiser, obtenir_chemin, List.length_cons]
    rw [hb]
    constructor
    · rintro ⟨hlen, hlast⟩
      exact ⟨by omega, hlast⟩
    · rintro ⟨hlen, hlast⟩
      exact ⟨by omega, hlast⟩

end AFDVisualizer
